import Mathlib

/-!
Verification development for the ProjetPoids nutrition-tracking application
(src/mon_app.py). The arithmetic core of the application is shallowly
embedded below: Python numbers are modelled as rationals (all the
arithmetic in the source is exact integer or decimal arithmetic on small
values), Python dicts as association lists or as finitely supported
functions, and the fallible division of the Cockpit tab as an explicit
error value mirroring the Python ZeroDivisionError runtime exception.
-/

/-- Truncation toward zero, the semantics of the Python builtin int()
applied to a number. -/
def pyInt (q : ℚ) : ℤ := if 0 ≤ q then ⌊q⌋ else ⌈q⌉

/-- Macro profile of a pantry ingredient, per 100 g: the dictionary
with keys kcal, prot, gluc, lip built by the V15 schema of mon_app.py. -/
structure Macros where
  kcal : ℚ
  prot : ℚ
  gluc : ℚ
  lip : ℚ
deriving DecidableEq

/-- A stored garde-manger value: either a bare number (legacy V14 schema)
or a full macro dictionary (V15 schema). -/
inductive IngVal where
  | num (n : ℚ)
  | obj (m : Macros)
deriving DecidableEq

/-- Embedding of normalize_ingredient (mon_app.py lines 85-89): a bare
number val becomes the dictionary with kcal = int(val) and zero macros,
anything else is returned unchanged. -/
def normalize_ingredient : IngVal → IngVal
  | .num n => .obj ⟨((pyInt n : ℤ) : ℚ), 0, 0, 0⟩
  | .obj m => .obj m

/-- One ingredient line of a recipe, as stored in the recipes document:
keys nom, poids, cal, prot, gluc, lip (mon_app.py lines 429-432). -/
structure Ligne where
  nom : String
  poids : ℤ
  cal : ℤ
  prot : ℚ
  gluc : ℚ
  lip : ℚ
deriving DecidableEq

/-- A stored recipe: macro totals plus the ordered ingredient lines
(mon_app.py lines 452-455). -/
structure Recette where
  total_cal : ℚ
  total_prot : ℚ
  total_gluc : ℚ
  total_lip : ℚ
  ingredients : List Ligne
deriving DecidableEq

/-- The scaled portion shown by the Cockpit tab: portion weight in grams
and the three delivered macro amounts. -/
structure ScaleOut where
  por : ℚ
  prot : ℚ
  gluc : ℚ
  lip : ℚ
deriving DecidableEq

/-- Outcome of the Cockpit scaling block. noResult models the branch
where pn is not positive, in which the code renders nothing at all;
zeroDivError models the Python ZeroDivisionError raised by ob / ct when
the selected recipe has total_cal equal to zero. -/
inductive ScaleRes where
  | noResult
  | zeroDivError
  | result (out : ScaleOut)
deriving DecidableEq

/-- Embedding of the Cockpit portion computation (mon_app.py lines
241-262): ct is the recipe total_cal, ob the target kcal for the meal,
pn the net weight on the scale. The code runs only when pn is positive
and computes por = (ob / ct) * pn together with each macro total scaled
by ob / ct. Division by a zero ct raises in Python; the embedding makes
that a zeroDivError value. -/
def cockpitScale (r : Recette) (ob pn : ℚ) : ScaleRes :=
  if 0 < pn then
    if r.total_cal = 0 then .zeroDivError
    else
      .result ⟨ob / r.total_cal * pn, r.total_prot * (ob / r.total_cal),
               r.total_gluc * (ob / r.total_cal), r.total_lip * (ob / r.total_cal)⟩
  else .noResult

/-- Embedding of the Cockpit tare subtraction (mon_app.py line 253):
pn = max(0, pa - plats_vides[pl]), the net weight obtained from the
gross scale reading pa and the empty weight of the chosen container. -/
def netWeight (pa tare : ℤ) : ℤ := max 0 (pa - tare)

/-- The ordered shelf keyword table RAYONS of mon_app.py lines 71-76. -/
def RAYONS : List (String × List String) :=
  [("🥩 Boucherie", ["boeuf", "poulet", "dinde", "porc", "jambon", "lardon", "saumon",
                     "poisson", "thon", "viande", "steak"]),
   ("🥦 Fruits & Légumes", ["pomme", "terre", "légume", "banane", "avocat", "citron",
                            "salade", "tomate", "oignon", "carotte", "courgette"]),
   ("🥛 Crèmerie", ["crème", "beurre", "yaourt", "fromage", "lait", "oeuf", "skyr"]),
   ("🍝 Épicerie", ["pâtes", "riz", "pain", "farine", "sucre", "huile", "sel",
                    "poivre", "sauce", "conserve"])]

/-- Whether the first character list occurs at the head of the second. -/
def matchesAt : List Char → List Char → Bool
  | [], _ => true
  | _ :: _, [] => false
  | a :: ms, b :: ss => a == b && matchesAt ms ss

/-- Substring test on character lists: the semantics of the Python
expression m in s for strings. -/
def isSub : List Char → List Char → Bool
  | m, [] => m.isEmpty
  | m, b :: t => matchesAt m (b :: t) || isSub m t

/-- Lowercasing of one character with the semantics of Python
str.lower() on the Latin script the application handles: ASCII A-Z,
the Latin-1 uppercase block À-Þ (the multiplication sign 215 is not a
letter and is left alone), and the French digraph and Ÿ outside that
block. -/
def lowerChar (c : Char) : Char :=
  if 65 ≤ c.toNat ∧ c.toNat ≤ 90 then Char.ofNat (c.toNat + 32)
  else if 192 ≤ c.toNat ∧ c.toNat ≤ 222 ∧ c.toNat ≠ 215 then Char.ofNat (c.toNat + 32)
  else if c.toNat = 338 then Char.ofNat 339
  else if c.toNat = 376 then Char.ofNat 255
  else c

/-- Lowercasing of a character list, modelling str.lower() on the names
handled by the application. -/
def pyLower (s : List Char) : List Char := s.map lowerChar

/-- First-match scan over a rule table: the loop of detect_rayon
(mon_app.py lines 77-80), returning the first category one of whose
keywords occurs in the lowered name, and the Divers default otherwise. -/
def detectFrom (nomL : List Char) : List (String × List String) → String
  | [] => "🛒 Divers"
  | (r, mots) :: rest =>
    if mots.any (fun m => isSub m.data nomL) then r else detectFrom nomL rest

/-- Embedding of detect_rayon (mon_app.py lines 77-80). -/
def detect_rayon (nom : String) : String := detectFrom (pyLower nom.data) RAYONS

/-- One update of the shopping dictionary by an ingredient line:
sh[i[nom]] = sh.get(i[nom], 0) + i[poids] (mon_app.py line 318). The
dictionary is modelled as a total function defaulting to 0. -/
def addLigne (sh : String → ℤ) (l : Ligne) : String → ℤ :=
  fun nm => if nm = l.nom then sh nm + l.poids else sh nm

/-- Contribution of one planned slot to the shopping dictionary
(mon_app.py lines 315-318): a slot whose recipe name is absent from the
recipe table is skipped, otherwise every ingredient line of the recipe
is added in order. -/
def addRecette (recettes : String → Option Recette) (sh : String → ℤ) (r : String) :
    String → ℤ :=
  match recettes r with
  | none => sh
  | some rc => rc.ingredients.foldl addLigne sh

/-- Embedding of the Courses aggregation loop (mon_app.py lines 312-318):
slots is the list of recipe names of all planned slots, in iteration
order; the result maps each ingredient name to its accumulated weight. -/
def coursesAgg (slots : List String) (recettes : String → Option Recette) :
    String → ℤ :=
  slots.foldl (addRecette recettes) (fun _ => 0)

/-- Outcome of the Oracle tab (mon_app.py lines 283-306). insuffisant is
the fewer-than-two-samples warning; silencieux is the branch days ≤ 0 in
which the code renders nothing; projection carries the rate in kg per
day, the projected whole number of days, and the projected date as a day
number; stable is the non-decreasing-trend message. -/
inductive OracleOut where
  | insuffisant
  | silencieux
  | projection (vitesse : ℚ) (jours : ℤ) (dateFin : ℤ)
  | stable (vitesse : ℚ)
deriving DecidableEq

/-- Embedding of the Oracle trend computation (mon_app.py lines
283-306). The weight log dict, once its keys are sorted, is a list of
(date, weight) samples in date order; dates are modelled as day numbers
so that the Python day difference is plain subtraction. The code takes
the first and last sample, computes vitesse = (p1 - p2) / days when
days > 0, and when vitesse > 0 projects jours = int((p2 - obj) / vitesse)
days until the target obj, reaching it on day d2 + jours. -/
def oracle : List (ℤ × ℚ) → ℚ → OracleOut
  | [], _ => .insuffisant
  | [_], _ => .insuffisant
  | s1 :: s2 :: rest, obj =>
    let sl := (s2 :: rest).getLast (List.cons_ne_nil s2 rest)
    let days : ℤ := sl.1 - s1.1
    if 0 < days then
      let vitesse := (s1.2 - sl.2) / ((days : ℤ) : ℚ)
      if 0 < vitesse then
        let jours := pyInt ((sl.2 - obj) / vitesse)
        .projection vitesse jours (sl.1 + jours)
      else .stable vitesse
    else .silencieux

/-- Python dict assignment log[d] = w on an association list with
distinct keys: overwrite in place when the key exists, append otherwise
(mon_app.py line 486, poids_data[today] = w). -/
def dictInsert (log : List (String × ℚ)) (d : String) (w : ℚ) :
    List (String × ℚ) :=
  if log.any (fun e => e.1 == d) then
    log.map (fun e => if e.1 = d then (d, w) else e)
  else log ++ [(d, w)]

/-- Python dict lookup log[d] as an Option. -/
def dictLookup (log : List (String × ℚ)) (d : String) : Option ℚ :=
  (log.find? (fun e => e.1 == d)).map Prod.snd

/-- One planned slot: recipe name and kcal target (mon_app.py line 474). -/
structure PlanSlot where
  recette : String
  cible : ℤ
deriving DecidableEq

/-- One journal entry (mon_app.py lines 268-276). -/
structure JournalEntry where
  heure : String
  recette : String
  poids : ℤ
  kcal : ℚ
  prot : ℚ
  gluc : ℚ
  lip : ℚ
deriving DecidableEq

/-- The six in-memory collections of st.session_state (mon_app.py lines
129-144 and 156-162). -/
structure SessionState where
  recettes : List (String × Recette)
  plats : List (String × ℤ)
  planning : List (String × List (String × PlanSlot))
  journal : List (String × List JournalEntry)
  poids : List (String × ℚ)
  garde_manger : List (String × IngVal)

/-- The six documents of the spreadsheet store ProjetPoids_DB. -/
structure CloudStore where
  recettes : List (String × Recette)
  plats : List (String × ℤ)
  planning : List (String × List (String × PlanSlot))
  journal : List (String × List JournalEntry)
  poids : List (String × ℚ)
  garde_manger : List (String × IngVal)

/-- Whole application state: session cache plus cloud store. -/
structure App where
  session : SessionState
  cloud : CloudStore

/-- Embedding of the Reset Semaine button handler (mon_app.py lines
181-187): it empties the planning and journal collections in the session
and pushes the two empty documents to the cloud, touching nothing else. -/
def resetSemaine (a : App) : App :=
  { session := { a.session with planning := [], journal := [] },
    cloud := { a.cloud with planning := [], journal := [] } }

/-! ## Helper lemmas -/

/-- Python int() is the identity on integral values. -/
theorem pyInt_intCast (n : ℤ) : pyInt ((n : ℤ) : ℚ) = n := by
  unfold pyInt
  split <;> simp

/-! ## Claims -/

/-- Claim C5 (amended): normalize_ingredient sends every bare number q
to the profile with kcal = int(q) — the truncation of q — and zero
macros; that profile has kcal = n exactly on the integral bare numbers
n; and every macro object is returned unchanged. -/
theorem normalize_ingredient_spec :
    (∀ q : ℚ, normalize_ingredient (.num q) = .obj ⟨((pyInt q : ℤ) : ℚ), 0, 0, 0⟩)
    ∧ (∀ n : ℤ, normalize_ingredient (.num ((n : ℤ) : ℚ)) = .obj ⟨((n : ℤ) : ℚ), 0, 0, 0⟩)
    ∧ ∀ m : Macros, normalize_ingredient (.obj m) = .obj m := by
  refine ⟨fun q => rfl, fun n => ?_, fun m => rfl⟩
  simp [normalize_ingredient, pyInt_intCast]

/-- Claim C5 counterexample: on the bare number 3/2 the normalizer
returns kcal = 1, not kcal = 3/2 as the claim states, because the code
applies int() to the stored value. -/
theorem normalize_trunc_cex :
    normalize_ingredient (.num (3/2)) = .obj ⟨1, 0, 0, 0⟩ ∧
    normalize_ingredient (.num (3/2)) ≠ .obj ⟨3/2, 0, 0, 0⟩ := by
  norm_num [normalize_ingredient, pyInt]

/-- Claim C7: for nonnegative gross reading g and tare t the Cockpit net
weight is max(0, g - t): it is nonnegative, equals g - t when the tare
does not exceed the reading, and is clamped to 0 otherwise. -/
theorem netWeight_clamp (g t : ℤ) (hg : 0 ≤ g) (ht : 0 ≤ t) :
    0 ≤ netWeight g t ∧ (t ≤ g → netWeight g t = g - t) ∧ (g < t → netWeight g t = 0) := by
  unfold netWeight
  refine ⟨le_max_left 0 _, fun h => max_eq_right (by omega), fun h => max_eq_left (by omega)⟩

/-- Claim C7 witness: gross 1200 with tare 300 nets 900; gross 200 with
tare 300 nets 0, not a negative value. -/
theorem netWeight_clamp_witness : netWeight 1200 300 = 900 ∧ netWeight 200 300 = 0 := by
  constructor
  · have h := (netWeight_clamp 1200 300 (by norm_num) (by norm_num)).2.1 (by norm_num)
    omega
  · exact (netWeight_clamp 200 300 (by norm_num) (by norm_num)).2.2 (by norm_num)

/-- Claim C1 (amended): for a recipe with positive total_cal, a
nonnegative objective ob and a positive net weight pn, the Cockpit
returns portion (ob / ct) * pn and each macro total scaled by ob / ct;
when ob equals ct the portion equals pn. At pn = 0 the code suppresses
the computation and returns no result at all. -/
theorem cockpitScale_spec (r : Recette) (ob pn : ℚ) (hct : 0 < r.total_cal)
    (hob : 0 ≤ ob) (hpn : 0 < pn) :
    cockpitScale r ob pn =
      .result ⟨ob / r.total_cal * pn, r.total_prot * (ob / r.total_cal),
               r.total_gluc * (ob / r.total_cal), r.total_lip * (ob / r.total_cal)⟩
    ∧ (ob = r.total_cal → ob / r.total_cal * pn = pn) := by
  constructor
  · unfold cockpitScale
    rw [if_pos hpn, if_neg (ne_of_gt hct)]
  · intro h
    rw [h, div_self (ne_of_gt hct), one_mul]

/-- Claim C1 witness: recipe of 500 kcal with macros 30/40/10, objective
500 kcal, net weight 900 g gives portion 900 g and macros 30/40/10 (the
identity at the 1:1 ratio). -/
theorem cockpitScale_spec_witness :
    cockpitScale ⟨500, 30, 40, 10, []⟩ 500 900 = .result ⟨900, 30, 40, 10⟩ := by
  have h := (cockpitScale_spec ⟨500, 30, 40, 10, []⟩ 500 900 (by norm_num) (by norm_num)
    (by norm_num)).1
  rw [h]
  norm_num

/-- Claim C1 counterexample: at net weight pn = 0 the Cockpit renders
nothing, so the scaler does not return the scaled values the claim
promises for every pn greater than or equal to 0. -/
theorem cockpitScale_zero_net_cex :
    cockpitScale ⟨500, 30, 40, 10, []⟩ 500 0 = .noResult ∧
    cockpitScale ⟨500, 30, 40, 10, []⟩ 500 0 ≠ .result ⟨0, 30, 40, 10⟩ := by
  constructor
  · norm_num [cockpitScale]
  · norm_num [cockpitScale]
    intro h
    cases h

/-- Claim C2: the code has no InvalidRecipe guard; selecting a recipe
with total_cal = 0 reaches the division ob / ct and raises the Python
ZeroDivisionError, modelled here as the zeroDivError outcome. -/
theorem cockpitScale_zero_cal_div :
    cockpitScale ⟨0, 0, 0, 0, []⟩ 600 900 = .zeroDivError := by
  norm_num [cockpitScale]

/-- Claim C8: a negative objective is not rejected; the Cockpit computes
with it and produces a negative portion and negative macro amounts. -/
theorem cockpitScale_negative_target :
    cockpitScale ⟨500, 30, 40, 10, []⟩ (-100) 900 = .result ⟨-180, -6, -8, -2⟩ := by
  norm_num [cockpitScale]

/-- Claim C10: the Reset Semaine handler empties exactly the planning
and journal collections, in the session and in the cloud store, and
leaves the recipes, containers, weight log and pantry untouched. -/
theorem resetSemaine_frame (a : App) :
    (resetSemaine a).session.planning = [] ∧ (resetSemaine a).session.journal = [] ∧
    (resetSemaine a).cloud.planning = [] ∧ (resetSemaine a).cloud.journal = [] ∧
    (resetSemaine a).session.recettes = a.session.recettes ∧
    (resetSemaine a).session.plats = a.session.plats ∧
    (resetSemaine a).session.poids = a.session.poids ∧
    (resetSemaine a).session.garde_manger = a.session.garde_manger ∧
    (resetSemaine a).cloud.recettes = a.cloud.recettes ∧
    (resetSemaine a).cloud.plats = a.cloud.plats ∧
    (resetSemaine a).cloud.poids = a.cloud.poids ∧
    (resetSemaine a).cloud.garde_manger = a.cloud.garde_manger :=
  ⟨rfl, rfl, rfl, rfl, rfl, rfl, rfl, rfl, rfl, rfl, rfl, rfl⟩

/-- Value of a fold of ingredient-line updates at one name: the starting
value plus the weights of the matching lines. -/
theorem foldl_addLigne (lignes : List Ligne) (sh : String → ℤ) (n : String) :
    lignes.foldl addLigne sh n =
      sh n + ((lignes.filter (fun l => l.nom == n)).map Ligne.poids).sum := by
  induction lignes generalizing sh with
  | nil => simp
  | cons l t ih =>
    rw [List.foldl_cons, ih]
    by_cases h : l.nom = n
    · simp only [addLigne, List.filter_cons, h, beq_self_eq_true, if_true, if_pos rfl,
        List.map_cons, List.sum_cons]
      omega
    · have h2 : ¬ n = l.nom := fun hh => h hh.symm
      simp only [addLigne, List.filter_cons, if_neg h2]
      rw [if_neg (by simpa using h)]

/-- Value of the slot fold at one name: the starting value plus each
existing recipe contribution. -/
theorem foldl_addRecette (recettes : String → Option Recette) (slots : List String)
    (sh : String → ℤ) (n : String) :
    slots.foldl (addRecette recettes) sh n =
      sh n + (slots.map (fun r =>
        ((recettes r).map (fun rc =>
          ((rc.ingredients.filter (fun l => l.nom == n)).map Ligne.poids).sum)).getD 0)).sum := by
  induction slots generalizing sh with
  | nil => simp
  | cons s t ih =>
    rw [List.foldl_cons, ih]
    cases h : recettes s with
    | none => simp [addRecette, h]
    | some rc =>
      simp only [addRecette, h, List.map_cons, List.sum_cons, Option.map_some',
        Option.getD_some, foldl_addLigne]
      omega

/-- Claim C3: the Courses aggregation maps each ingredient name to the
sum of its line weights over all planned slots whose recipe exists in
the recipe table; a slot whose recipe is absent contributes the zero of
the getD default and the fold is total, so no error is possible. -/
theorem coursesAgg_spec (slots : List String) (recettes : String → Option Recette)
    (n : String) :
    coursesAgg slots recettes n =
      (slots.map (fun r =>
        ((recettes r).map (fun rc =>
          ((rc.ingredients.filter (fun l => l.nom == n)).map Ligne.poids).sum)).getD 0)).sum := by
  unfold coursesAgg
  rw [foldl_addRecette]
  simp

/-- First-match characterization of the rule scan: if find? locates a
first rule whose keyword set matches, the scan returns its category; if
no keyword of any rule matches, the scan returns the Divers default. -/
theorem detectFrom_eq (nomL : List Char) (rules : List (String × List String)) :
    (∀ r, (rules.find? (fun p => p.2.any (fun m => isSub m.data nomL))).map Prod.fst =
        some r → detectFrom nomL rules = r)
    ∧ ((∀ p ∈ rules, ∀ m ∈ p.2, isSub m.data nomL = false) →
      detectFrom nomL rules = "🛒 Divers") := by
  induction rules with
  | nil => simp [detectFrom]
  | cons hd tl ih =>
    obtain ⟨r0, mots⟩ := hd
    constructor
    · intro r hr
      by_cases h : mots.any (fun m => isSub m.data nomL)
      · rw [@List.find?_cons_of_pos _ (fun q => q.2.any fun m => isSub m.data nomL)
          (r0, mots) tl h] at hr
        simp only [Option.map_some', Option.some.injEq] at hr
        simp [detectFrom, h, hr]
      · rw [@List.find?_cons_of_neg _ (fun q => q.2.any fun m => isSub m.data nomL)
          (r0, mots) tl h] at hr
        simp only [detectFrom, if_neg h]
        exact ih.1 r hr
    · intro hall
      have h : ¬ mots.any (fun m => isSub m.data nomL) = true := by
        simp only [List.any_eq_true, not_exists, not_and]
        intro m hm
        simp [hall (r0, mots) (List.mem_cons_self _ _) m hm]
      simp only [detectFrom, if_neg h]
      exact ih.2 fun p hp m hm => hall p (List.mem_cons_of_mem _ hp) m hm

/-- Claim C6: detect_rayon lowercases the name, scans the ordered RAYONS
rule table and returns the category of the first rule one of whose
keywords occurs in the name; when no keyword of any rule occurs it
returns the default Divers category. -/
theorem detect_rayon_spec (nom : String) :
    (∀ r, (RAYONS.find? (fun p =>
        p.2.any (fun m => isSub m.data (pyLower nom.data)))).map Prod.fst = some r →
      detect_rayon nom = r)
    ∧ ((∀ p ∈ RAYONS, ∀ m ∈ p.2, isSub m.data (pyLower nom.data) = false) →
      detect_rayon nom = "🛒 Divers") :=
  detectFrom_eq (pyLower nom.data) RAYONS

/-- Claim C6 witness: Poulet fermier matches the butcher category
through the keyword poulet after lowercasing, the fully uppercase
accented name LÉGUME matches the vegetable category through the keyword
légume, and Widget matches no keyword and falls into the Divers
default. -/
theorem detect_rayon_spec_witness :
    detect_rayon "Poulet fermier" = "🥩 Boucherie"
    ∧ detect_rayon "LÉGUME" = "🥦 Fruits & Légumes"
    ∧ detect_rayon "Widget" = "🛒 Divers" :=
  ⟨(detect_rayon_spec "Poulet fermier").1 "🥩 Boucherie" (by decide),
   (detect_rayon_spec "LÉGUME").1 "🥦 Fruits & Légumes" (by decide),
   (detect_rayon_spec "Widget").2 (by decide)⟩

/-- Claim C4 (amended): for two or more samples in strict date order
(the weight log holds at most one sample per date, so dates are
distinct), the earliest and latest sample are a positive number of days
apart, so no division by zero can occur; with rate
v = (earliest - latest) / days positive and a target below the latest
weight the Oracle projects int((latest - target) / v) days — the Python
int() truncation of the quotient — and the date latest_date + that
integer; with v nonpositive it reports the stable trend and offers no
projection. -/
theorem oracle_spec (s1 s2 sl : ℤ × ℚ) (rest : List (ℤ × ℚ)) (obj v : ℚ)
    (hsort : (s1 :: s2 :: rest).Pairwise (fun a b => a.1 < b.1))
    (hl : (s2 :: rest).getLast (List.cons_ne_nil s2 rest) = sl)
    (hv : v = (s1.2 - sl.2) / ((sl.1 - s1.1 : ℤ) : ℚ)) :
    s1.1 < sl.1
    ∧ (0 < v → obj < sl.2 →
        oracle (s1 :: s2 :: rest) obj =
          .projection v (pyInt ((sl.2 - obj) / v)) (sl.1 + pyInt ((sl.2 - obj) / v)))
    ∧ (v ≤ 0 → oracle (s1 :: s2 :: rest) obj = .stable v) := by
  have hmem : sl ∈ s2 :: rest := hl ▸ List.getLast_mem (List.cons_ne_nil s2 rest)
  have hlt : s1.1 < sl.1 := (List.pairwise_cons.mp hsort).1 sl hmem
  have hdays : (0 : ℤ) < sl.1 - s1.1 := by omega
  refine ⟨hlt, ?_, ?_⟩
  · intro hv0 _
    simp only [oracle, hl]
    rw [if_pos hdays, if_pos (by rw [← hv]; exact hv0), ← hv]
  · intro hv0
    simp only [oracle, hl]
    rw [if_pos hdays, if_neg (by rw [← hv]; exact not_lt.mpr hv0), ← hv]

/-- Claim C4 witness: samples 80 kg on day 0 and 78 kg on day 10 give a
rate of 1/5 kg per day; target 75 kg projects 15 days, reached on day
25, the oracle example of the spec. -/
theorem oracle_spec_witness :
    oracle [((0 : ℤ), (80 : ℚ)), (10, 78)] 75 = .projection (1/5) 15 25 := by
  have h := (oracle_spec (0, 80) (10, 78) (10, 78) [] 75 (1/5) (by decide) rfl
    (by norm_num)).2.1 (by norm_num) (by norm_num)
  rw [h]
  norm_num [pyInt]

/-- Claim C4 counterexample: samples 80 kg on day 0 and 78 kg on day 3
with target 77 kg: the claimed days_to_target (latest - target) / rate
equals 3/2, but the code truncates with int() and reports 1 day and
day 4, not the exact quotient. -/
theorem oracle_trunc_cex :
    oracle [((0 : ℤ), (80 : ℚ)), (3, 78)] 77 = .projection (2/3) 1 4 ∧
    ((78 : ℚ) - 77) / ((80 - 78) / ((3 : ℤ) : ℚ)) ≠ ((1 : ℤ) : ℚ) := by
  constructor
  · norm_num [oracle, pyInt]
  · norm_num

/-- Keys are unchanged by an in-place dict overwrite. -/
theorem dictKeys_overwrite (log : List (String × ℚ)) (d : String) (w : ℚ) :
    (log.map (fun e => if e.1 = d then (d, w) else e)).map Prod.fst = log.map Prod.fst := by
  rw [List.map_map]
  apply List.map_congr_left
  intro e _
  by_cases h : e.1 = d
  · simp [h]
  · simp [h]

/-- After an in-place overwrite of an existing key, lookup of that key
finds the new pair. -/
theorem dictFind_overwrite (log : List (String × ℚ)) (d : String) (w : ℚ)
    (hany : log.any (fun e => e.1 == d) = true) :
    (log.map (fun e => if e.1 = d then (d, w) else e)).find? (fun e => e.1 == d) =
      some (d, w) := by
  induction log with
  | nil => simp at hany
  | cons e t ih =>
    by_cases h : e.1 = d
    · simp [h, List.find?_cons]
    · have ht : t.any (fun e => e.1 == d) = true := by
        simpa [h] using hany
      simp [h, List.find?_cons, ih ht]

/-- An in-place overwrite of one key leaves lookups of every other key
unchanged. -/
theorem dictFind_overwrite_other (log : List (String × ℚ)) (d : String) (w : ℚ)
    (e' : String) (hne : e' ≠ d) :
    (log.map (fun x => if x.1 = d then (d, w) else x)).find? (fun x => x.1 == e') =
      log.find? (fun x => x.1 == e') := by
  induction log with
  | nil => rfl
  | cons x t ih =>
    by_cases h : x.1 = d
    · have hde : ¬ d = e' := fun hh => hne hh.symm
      have h1 : ¬ ((d, w).1 == e') = true := by simpa using hde
      have h2 : ¬ (x.1 == e') = true := by rw [h]; simpa using hde
      simp only [List.map_cons, if_pos h]
      rw [@List.find?_cons_of_neg _ (fun x => x.1 == e') (d, w) _ h1,
        @List.find?_cons_of_neg _ (fun x => x.1 == e') x t h2, ih]
    · by_cases h2 : x.1 = e'
      · simp only [List.map_cons, if_neg h]
        rw [@List.find?_cons_of_pos _ (fun x => x.1 == e') x _ (by simpa using h2),
          @List.find?_cons_of_pos _ (fun x => x.1 == e') x t (by simpa using h2)]
      · simp only [List.map_cons, if_neg h]
        rw [@List.find?_cons_of_neg _ (fun x => x.1 == e') x _ (by simpa using h2),
          @List.find?_cons_of_neg _ (fun x => x.1 == e') x t (by simpa using h2), ih]

/-- An in-place overwrite does not change how many entries carry the
overwritten key. -/
theorem dictCountP_overwrite (log : List (String × ℚ)) (d : String) (w : ℚ) :
    (log.map (fun x => if x.1 = d then (d, w) else x)).countP (fun x => x.1 == d) =
      log.countP (fun x => x.1 == d) := by
  rw [List.countP_map]
  apply List.countP_congr
  intro x _
  by_cases h : x.1 = d
  · simp [Function.comp, h]
  · simp [Function.comp, h]

/-- With distinct keys, a key that occurs occurs on exactly one entry. -/
theorem dictCountP_one (log : List (String × ℚ)) (d : String)
    (hnd : (log.map Prod.fst).Nodup) (hany : log.any (fun e => e.1 == d) = true) :
    log.countP (fun e => e.1 == d) = 1 := by
  have h1 : log.countP (fun e => e.1 == d) = List.count d (log.map Prod.fst) := by
    rw [List.count_eq_countP, List.countP_map]
    rfl
  have h2 : List.count d (log.map Prod.fst) ≤ 1 :=
    List.nodup_iff_count_le_one.mp hnd d
  have h3 : d ∈ log.map Prod.fst := by
    rw [List.any_eq_true] at hany
    obtain ⟨e, he, hed⟩ := hany
    rw [beq_iff_eq] at hed
    exact hed ▸ List.mem_map_of_mem Prod.fst he
  have h4 : 0 < List.count d (log.map Prod.fst) := List.count_pos_iff.mpr h3
  omega

/-- Claim C9: writing a weight for a date into a log with distinct dates
keeps the dates distinct, makes the lookup of that date return the new
value, leaves every other date unchanged, and leaves exactly one entry
for the written date — an overwrite, never a second accumulated sample. -/
theorem poids_overwrite (log : List (String × ℚ)) (d : String) (w : ℚ)
    (hnd : (log.map Prod.fst).Nodup) :
    ((dictInsert log d w).map Prod.fst).Nodup
    ∧ dictLookup (dictInsert log d w) d = some w
    ∧ (∀ e, e ≠ d → dictLookup (dictInsert log d w) e = dictLookup log e)
    ∧ (dictInsert log d w).countP (fun x => x.1 == d) = 1 := by
  by_cases hany : log.any (fun e => e.1 == d) = true
  · rw [dictInsert, if_pos hany]
    refine ⟨?_, ?_, ?_, ?_⟩
    · rw [dictKeys_overwrite]
      exact hnd
    · rw [dictLookup, dictFind_overwrite log d w hany]
      rfl
    · intro e he
      rw [dictLookup, dictLookup, dictFind_overwrite_other log d w e he]
    · rw [dictCountP_overwrite]
      exact dictCountP_one log d hnd hany
  · have hany2 : log.any (fun e => e.1 == d) = false := by
      rw [← Bool.not_eq_true]
      exact hany
    rw [List.any_eq_false] at hany2
    have hnone : log.find? (fun e => e.1 == d) = none := by
      rw [List.find?_eq_none]
      intro x hx
      exact hany2 x hx
    have hnotmem : d ∉ log.map Prod.fst := by
      intro hm
      obtain ⟨e, he, hed⟩ := List.mem_map.mp hm
      exact hany2 e he (by simp [hed])
    rw [dictInsert, if_neg hany]
    refine ⟨?_, ?_, ?_, ?_⟩
    · rw [List.map_append, List.nodup_append]
      refine ⟨hnd, by simp, ?_⟩
      intro a ha hb
      simp only [List.map_cons, List.map_nil, List.mem_singleton] at hb
      exact hnotmem (hb ▸ ha)
    · rw [dictLookup, List.find?_append, hnone]
      simp [List.find?_cons]
    · intro e he
      rw [dictLookup, dictLookup, List.find?_append]
      have h1 : ¬ ((d, w).1 == e) = true := by
        simpa using fun hh => he hh.symm
      rw [@List.find?_cons_of_neg _ (fun x => x.1 == e) (d, w) [] h1]
      simp [List.find?_nil]
    · rw [List.countP_append]
      have h0 : log.countP (fun x => x.1 == d) = 0 := by
        rw [List.countP_eq_zero]
        exact hany2
      rw [h0]
      simp [List.countP_cons]

/-- Claim C9 witness: writing 79 for a date that already holds 80
overwrites it — the lookup returns 79 and the log holds exactly one
entry for that date. -/
theorem poids_overwrite_witness :
    dictLookup (dictInsert [("2024-01-01", 80)] "2024-01-01" 79) "2024-01-01" = some 79 ∧
    (dictInsert [("2024-01-01", 80)] "2024-01-01" 79).countP
      (fun x => x.1 == "2024-01-01") = 1 :=
  ⟨(poids_overwrite [("2024-01-01", 80)] "2024-01-01" 79 (by decide)).2.1,
   (poids_overwrite [("2024-01-01", 80)] "2024-01-01" 79 (by decide)).2.2.2⟩
